import Mathlib

/-!
Verification of the BTprinter receipt-rendering core.

Strings from the TypeScript source are modelled as `List Char`.
JavaScript numbers appearing in invoices are modelled as `Int`
(exact integer arithmetic; every property checked here is evaluated at
integer inputs, where IEEE-754 double arithmetic agrees with `Int`).
-/

namespace BTprinter

/-- Embeds `wrapText` from `BluetoothDeviceSelector.tsx` (invoiceFormatter part):
`while (text.length > width) { result += text.substring(0, width) + "\n"; text = text.substring(width); } result += text`.
The source loop diverges when `width = 0` and `text` is nonempty, so the
embedding carries the extra guard `0 < width`; every claim about `wrapText`
has `width ≥ 1`, where the embedding and the source agree. -/
def wrapText (text : List Char) (width : Nat) : List Char :=
  if _h : 0 < width ∧ width < text.length then
    text.take width ++ '\n' :: wrapText (text.drop width) width
  else
    text
termination_by text.length
decreasing_by
  simp only [List.length_drop]
  omega

theorem wrapText_of_le {text : List Char} {width : Nat} (h : text.length ≤ width) :
    wrapText text width = text := by
  rw [wrapText, dif_neg]
  omega

theorem wrapText_step {text : List Char} {width : Nat} (h1 : 0 < width)
    (h2 : width < text.length) :
    wrapText text width = text.take width ++ '\n' :: wrapText (text.drop width) width := by
  rw [wrapText]
  simp only [dif_pos (And.intro h1 h2)]

/-- `modifyHead` acts only on the first block of an append of a nonempty list. -/
theorem modifyHead_append_of_ne_nil {α : Type} (f : α → α) (l1 l2 : List α)
    (h : l1 ≠ []) : (l1 ++ l2).modifyHead f = l1.modifyHead f ++ l2 := by
  cases l1 with
  | nil => exact absurd rfl h
  | cons a t => simp

/-- Splitting on a separator distributes over an append whose join point is
that separator, with no assumption on the contents of either side. -/
theorem splitOn_append_cons {α : Type} [DecidableEq α] (c : α) (xs ys : List α) :
    (xs ++ c :: ys).splitOn c = xs.splitOn c ++ ys.splitOn c := by
  induction xs with
  | nil =>
    simp [List.splitOn, List.splitOnP_cons]
  | cons a t ih =>
    by_cases hac : a = c
    · subst hac
      simp only [List.splitOn, List.splitOnP_cons, beq_self_eq_true, if_pos] at ih ⊢
      simp [ih]
    · have hbeq : (a == c) = false := beq_false_of_ne hac
      simp only [List.splitOn, List.cons_append, List.splitOnP_cons, hbeq, Bool.false_eq_true,
        if_false] at ih ⊢
      rw [ih, modifyHead_append_of_ne_nil]
      exact List.splitOnP_ne_nil _ _

/-- Every block produced by `splitOn` is no longer than the original list. -/
theorem length_le_of_mem_splitOn {α : Type} [DecidableEq α] {c : α} {l s : List α}
    (hs : s ∈ l.splitOn c) : s.length ≤ l.length := by
  induction l generalizing s with
  | nil =>
    simp only [List.splitOn_nil, List.mem_singleton] at hs
    subst hs
    simp
  | cons a t ih =>
    simp only [List.splitOn, List.splitOnP_cons] at hs ih
    by_cases hac : (a == c) = true
    · rw [if_pos hac] at hs
      rcases List.mem_cons.mp hs with h | h
      · subst h; simp
      · exact Nat.le_succ_of_le (ih h)
    · rw [if_neg hac] at hs
      rcases he : t.splitOnP (· == c) with _ | ⟨s0, rest⟩
      · exact absurd he (List.splitOnP_ne_nil _ _)
      · rw [he, List.modifyHead_cons] at hs
        rcases List.mem_cons.mp hs with h | h
        · subst h
          have : s0 ∈ t.splitOnP (· == c) := by rw [he]; exact List.mem_cons_self _ _
          have := ih this
          simpa using Nat.succ_le_succ this
        · have : s ∈ t.splitOnP (· == c) := by rw [he]; exact List.mem_cons_of_mem _ h
          exact Nat.le_succ_of_le (ih this)

/-- A list free of the separator splits into itself alone. -/
theorem splitOn_eq_single {α : Type} [DecidableEq α] {c : α} {l : List α}
    (h : c ∉ l) : l.splitOn c = [l] := by
  apply List.splitOnP_eq_single
  intro x hx hbx
  rw [beq_iff_eq] at hbx
  subst hbx
  exact h hx

/-- Auxiliary strong induction for the wrap-width bound: every physical line
of `wrapText text width` has at most `width` characters, for `width ≥ 1`. -/
theorem wrap_lines_le_aux (width : Nat) (hw : 0 < width) :
    ∀ (n : Nat) (text : List Char), text.length ≤ n →
      ∀ s ∈ (wrapText text width).splitOn '\n', s.length ≤ width := by
  intro n
  induction n with
  | zero =>
    intro text hlen s hs
    have htxt : text = [] := List.length_eq_zero.mp (Nat.le_zero.mp hlen)
    subst htxt
    rw [wrapText_of_le (by simp)] at hs
    simp only [List.splitOn_nil, List.mem_singleton] at hs
    subst hs
    exact Nat.zero_le _
  | succ n ih =>
    intro text hlen s hs
    by_cases hcond : width < text.length
    · rw [wrapText_step hw hcond, splitOn_append_cons] at hs
      rcases List.mem_append.mp hs with h | h
      · have := length_le_of_mem_splitOn h
        calc s.length ≤ (text.take width).length := this
          _ ≤ width := by simp
      · exact ih (text.drop width) (by simp; omega) s h
    · rw [wrapText_of_le (Nat.le_of_not_lt hcond)] at hs
      exact Nat.le_trans (length_le_of_mem_splitOn hs) (Nat.le_of_not_lt hcond)

/-- Claim C1: for every width in `[8, 80]` and every text longer than the
width, `wrapText` produces only physical lines of at most `width`
characters: splitting its result on the line-break character yields no line
longer than `width`. -/
theorem C1_wrap_width_respect (width : Nat) (h8 : 8 ≤ width) (h80 : width ≤ 80)
    (text : List Char) (_hlong : width < text.length)
    (s : List Char) (hs : s ∈ (wrapText text width).splitOn '\n') :
    s.length ≤ width :=
  wrap_lines_le_aux width (by omega) text.length text (Nat.le_refl _) s hs

theorem wrapText_eval1 : wrapText ("abcdefghi").toList 8 = ("abcdefgh\ni").toList := by
  rw [wrapText_step (by decide) (by decide), wrapText_of_le (by decide)]
  decide

/-- Witness for C1 at `width = 8`, `text = "abcdefghi"`: the second physical
line `"i"` of the wrapped text has length at most 8. -/
theorem C1_witness : (("i").toList).length ≤ 8 :=
  C1_wrap_width_respect 8 (by decide) (by decide) (("abcdefghi").toList) (by decide)
    (("i").toList) (by rw [wrapText_eval1]; decide)

/-- Claim C10: for text containing no line break and any `width ≥ 1`,
concatenating the physical lines of `wrapText` in order (line breaks
removed) restores the original text: wrapping never drops, duplicates, or
reorders characters. -/
theorem C10_wrap_concat_id (text : List Char) (width : Nat)
    (hnl : '\n' ∉ text) (hw : 1 ≤ width) :
    ((wrapText text width).splitOn '\n').flatten = text := by
  suffices H : ∀ (n : Nat) (t : List Char), t.length = n → '\n' ∉ t →
      ((wrapText t width).splitOn '\n').flatten = t from H text.length text rfl hnl
  intro n
  induction n using Nat.strong_induction_on with
  | _ n ih =>
    intro t hn hnl2
    by_cases hcond : width < t.length
    · rw [wrapText_step hw hcond, splitOn_append_cons, List.flatten_append]
      have htake : '\n' ∉ t.take width := fun hmem => hnl2 (List.take_subset _ _ hmem)
      have hdrop : '\n' ∉ t.drop width := fun hmem => hnl2 (List.drop_subset _ _ hmem)
      rw [splitOn_eq_single htake]
      have hrec := ih (t.drop width).length (by subst hn; simp; omega) (t.drop width)
        rfl hdrop
      rw [hrec]
      simp
    · rw [wrapText_of_le (Nat.le_of_not_lt hcond), splitOn_eq_single hnl2]
      simp

/-- Witness for C10 at `text = "abc"`, `width = 2`. -/
theorem C10_witness : ((wrapText ("abc").toList 2).splitOn '\n').flatten = ("abc").toList :=
  C10_wrap_concat_id (("abc").toList) 2 (by decide) (by decide)

/-- Embeds `leftRightText` from `escpos-commands.ts`:
`spacesCount = totalWidth - left.length - right.length`, then
`left + (spacesCount > 0 ? " ".repeat(spacesCount) : "") + right`. -/
def leftRightText (left right : List Char) (totalWidth : Nat) : List Char :=
  let spacesCount : Int := (totalWidth : Int) - left.length - right.length
  let spaces : List Char := if 0 < spacesCount then List.replicate spacesCount.toNat ' ' else []
  left ++ spaces ++ right

/-- Embeds JavaScript `String.prototype.padEnd(n)` padding with spaces. -/
def padEnd (l : List Char) (n : Nat) : List Char :=
  l ++ List.replicate (n - l.length) ' '

/-- Embeds `leftRightTextWrapped` from `BluetoothDeviceSelector.tsx`:
computes `leftWidth = totalWidth - right.length`; when `leftWidth <= 0`
returns `left + right`; otherwise wraps `left` to `leftWidth`, pads the
first wrapped line to `leftWidth` and appends `right`, emitting every
further wrapped line on its own line with nothing appended. -/
def leftRightTextWrapped (left right : List Char) (totalWidth : Nat) : List Char :=
  let leftWidth : Int := (totalWidth : Int) - right.length
  if leftWidth ≤ 0 then left ++ right
  else
    match (wrapText left leftWidth.toNat).splitOn '\n' with
    | [] => []
    | l0 :: rest =>
        padEnd l0 leftWidth.toNat ++ right ++ (rest.map (fun l => '\n' :: l)).flatten

theorem take_len_append {α : Type} (l1 l2 : List α) : (l1 ++ l2).take l1.length = l1 := by
  simp

theorem drop_len_append {α : Type} (l1 l2 : List α) : (l1 ++ l2).drop l1.length = l2 := by
  simp

/-- A string of shape `left ++ mid ++ right` starts with `left` and, reading
`right.length` characters off its tail, ends with `right`. -/
theorem sandwich_take_drop {α : Type} (left mid right : List α) :
    (left ++ mid ++ right).take left.length = left ∧
    (left ++ mid ++ right).drop ((left ++ mid ++ right).length - right.length) = right := by
  constructor
  · rw [List.append_assoc]
    exact take_len_append left (mid ++ right)
  · have h : (left ++ mid ++ right).length - right.length = (left ++ mid).length := by
      simp
      omega
    rw [h]
    exact drop_len_append (left ++ mid) right

/-- Claim C2, amended to line-break-free `left` and `right` (the original
claim fails when either contains a line break; see `C2_counterexample`):
whenever `left.length + right.length ≤ width`, both `leftRightText` and the
first physical line of `leftRightTextWrapped` have length exactly `width`,
start with `left` and end with `right`. -/
theorem C2_left_right_invariant (left right : List Char) (width : Nat)
    (hl : '\n' ∉ left) (hr : '\n' ∉ right)
    (hfit : left.length + right.length ≤ width) :
    ((leftRightText left right width).length = width ∧
      (leftRightText left right width).take left.length = left ∧
      (leftRightText left right width).drop
        ((leftRightText left right width).length - right.length) = right) ∧
    (((leftRightTextWrapped left right width).splitOn '\n').headI.length = width ∧
      ((leftRightTextWrapped left right width).splitOn '\n').headI.take left.length = left ∧
      ((leftRightTextWrapped left right width).splitOn '\n').headI.drop
        ((((leftRightTextWrapped left right width).splitOn '\n').headI).length
          - right.length) = right) := by
  constructor
  · have hmid : leftRightText left right width =
        left ++ (if 0 < (width : Int) - left.length - right.length then
          List.replicate ((width : Int) - left.length - right.length).toNat ' ' else []) ++
          right := rfl
    set mid : List Char := (if 0 < (width : Int) - left.length - right.length then
          List.replicate ((width : Int) - left.length - right.length).toNat ' ' else [])
      with hmiddef
    have hmlen : mid.length = width - left.length - right.length := by
      rw [hmiddef]
      by_cases hc : 0 < (width : Int) - left.length - right.length
      · rw [if_pos hc]
        simp only [List.length_replicate]
        omega
      · rw [if_neg hc]
        simp only [List.length_nil]
        omega
    refine ⟨?_, ?_, ?_⟩
    · rw [hmid]
      simp only [List.length_append, hmlen]
      omega
    · rw [hmid]
      exact (sandwich_take_drop left mid right).1
    · rw [hmid]
      exact (sandwich_take_drop left mid right).2
  · by_cases h0 : (width : Int) - right.length ≤ 0
    · have hlr : right.length = width := by omega
      have hll : left.length = 0 := by omega
      have hleft : left = [] := List.length_eq_zero.mp hll
      have hres : leftRightTextWrapped left right width = right := by
        simp only [leftRightTextWrapped]
        rw [if_pos h0, hleft]
        rfl
      rw [hres, splitOn_eq_single hr]
      subst hleft
      simp [hlr]
    · have hlrw : right.length < width := by omega
      have hlwN : ((width : Int) - right.length).toNat = width - right.length := by omega
      have hfitl : left.length ≤ width - right.length := by omega
      have hwrap : wrapText left ((width : Int) - right.length).toNat = left := by
        rw [hlwN]
        exact wrapText_of_le (by omega)
      have hsplit : (wrapText left ((width : Int) - right.length).toNat).splitOn '\n' =
          [left] := by rw [hwrap]; exact splitOn_eq_single hl
      have hres : leftRightTextWrapped left right width =
          left ++ List.replicate (width - right.length - left.length) ' ' ++ right := by
        simp only [leftRightTextWrapped]
        rw [if_neg h0, hsplit]
        simp [padEnd, hlwN]
      have hnlres : '\n' ∉ left ++ List.replicate (width - right.length - left.length) ' '
          ++ right := by
        intro hmem
        rcases List.mem_append.mp hmem with hmem2 | hmem2
        · rcases List.mem_append.mp hmem2 with hmem3 | hmem3
          · exact hl hmem3
          · have := List.eq_of_mem_replicate hmem3
            simp at this
        · exact hr hmem2
      rw [hres, splitOn_eq_single hnlres]
      refine ⟨?_, ?_, ?_⟩
      · show (left ++ List.replicate (width - right.length - left.length) ' '
            ++ right).length = width
        simp
        omega
      · exact (sandwich_take_drop left
          (List.replicate (width - right.length - left.length) ' ') right).1
      · exact (sandwich_take_drop left
          (List.replicate (width - right.length - left.length) ' ') right).2

/-- Witness for C2 at `left = "ab"`, `right = "cd"`, `width = 8`. -/
theorem C2_witness :
    ((leftRightText ("ab").toList ("cd").toList 8).length = 8 ∧
      (leftRightText ("ab").toList ("cd").toList 8).take ("ab").toList.length = ("ab").toList ∧
      (leftRightText ("ab").toList ("cd").toList 8).drop
        ((leftRightText ("ab").toList ("cd").toList 8).length - ("cd").toList.length) =
        ("cd").toList) ∧
    (((leftRightTextWrapped ("ab").toList ("cd").toList 8).splitOn '\n').headI.length = 8 ∧
      ((leftRightTextWrapped ("ab").toList ("cd").toList 8).splitOn '\n').headI.take
        ("ab").toList.length = ("ab").toList ∧
      ((leftRightTextWrapped ("ab").toList ("cd").toList 8).splitOn '\n').headI.drop
        ((((leftRightTextWrapped ("ab").toList ("cd").toList 8).splitOn '\n').headI).length
          - ("cd").toList.length) = ("cd").toList) :=
  C2_left_right_invariant (("ab").toList) (("cd").toList) 8 (by decide) (by decide) (by decide)

theorem lrtw_eval_newline :
    leftRightTextWrapped ['a', '\n', 'b'] [] 4 = ("a   \nb").toList := by
  have h4 : ((4 : Nat) : Int) - (([] : List Char)).length = 4 := by decide
  simp only [leftRightTextWrapped, h4]
  rw [if_neg (by decide)]
  rw [show ((4 : Int)).toNat = 4 from rfl]
  rw [wrapText_of_le (by decide)]
  decide

/-- Claim C2 counterexample: at `left = "a\nb"`, `right = ""`, `width = 4`
the hypothesis `left.length + right.length ≤ width` holds, yet the first
physical line of `leftRightTextWrapped` is `"a   "`, which does not start
with `left`: the claim as stated over all strings is false. -/
theorem C2_counterexample :
    (['a', '\n', 'b'] : List Char).length + ([] : List Char).length ≤ 4 ∧
    ¬ (((leftRightTextWrapped ['a', '\n', 'b'] [] 4).splitOn '\n').headI.take
        (['a', '\n', 'b'] : List Char).length = ['a', '\n', 'b']) := by
  refine ⟨by decide, ?_⟩
  rw [lrtw_eval_newline]
  decide

/-- Claim C3 counterexample: at `left = "abcdef"`, `right = "12345"`,
`width = 4` (so `right` is wider than `width`), the code performs no
hard-wrap at all: it returns the single physical line `left ++ right`, with
all of `left` on the first line, instead of wrapping `left` to the
remaining width and spilling it onto subsequent lines as the claim
states. -/
theorem C3_counterexample :
    4 < ("12345").toList.length ∧
    leftRightTextWrapped ("abcdef").toList ("12345").toList 4 =
      ("abcdef").toList ++ ("12345").toList ∧
    ((leftRightTextWrapped ("abcdef").toList ("12345").toList 4).splitOn '\n').length = 1 := by
  refine ⟨by decide, ?_, ?_⟩
  · simp only [leftRightTextWrapped]
    rw [if_pos (by decide)]
  · simp only [leftRightTextWrapped]
    rw [if_pos (by decide)]
    decide

/-- Claim C3, amended: when `right` alone is wider than `width`, the
available left width is non-positive and `leftRightTextWrapped` performs no
wrapping at all — it returns the concatenation `left ++ right` unchanged,
one logical line carrying `right` as suffix (the hard-wrap of `left` to
`width - right.length` happens only when that remaining width is
positive). -/
theorem C3_no_wrap_when_right_wide (left right : List Char) (width : Nat)
    (h : width < right.length) :
    leftRightTextWrapped left right width = left ++ right := by
  simp only [leftRightTextWrapped]
  rw [if_pos (by omega)]

/-- Witness for the amended C3 at `left = "abc"`, `right = "12345"`,
`width = 4`. -/
theorem C3_witness :
    leftRightTextWrapped ("abc").toList ("12345").toList 4 =
      ("abc").toList ++ ("12345").toList :=
  C3_no_wrap_when_right_wide (("abc").toList) (("12345").toList) 4 (by decide)

/-- Decimal rendering of an integer, as JavaScript `Number.prototype.toString`
renders an integer-valued number (a leading minus sign for negatives). -/
def intToString (i : Int) : List Char :=
  if i < 0 then '-' :: Nat.toDigits 10 i.natAbs else Nat.toDigits 10 i.toNat

/-- JavaScript `Number.prototype.toFixed(2)` on an integer-valued number:
the decimal rendering followed by `.00`. -/
def toFixed2 (i : Int) : List Char := intToString i ++ (".00").toList

/-- Embeds `setTextSize` from `escpos-commands.ts`: level 1 and 2 select
`GS ! 0x11` and `GS ! 0x22`; everything else falls back to `GS ! 0x00`. -/
def setTextSize (level : Int) : List Char :=
  if level == 1 then ("\x1D\x21\x11").toList
  else if level == 2 then ("\x1D\x21\x22").toList
  else ("\x1D\x21\x00").toList

/-- Module-size clamp in `printQRCode`: `Math.max(1, Math.min(moduleSize, 8))`. -/
def qrClamp (moduleSize : Int) : Int := max 1 (min moduleSize 8)

/-- `modelCommand` local of `printQRCode`. -/
def modelCommand : List Char := ("\x1D\x28\x6B\x04\x00\x31\x41\x32\x00").toList

/-- `sizeCommand` local of `printQRCode` (takes the already-clamped size). -/
def sizeCommand (size : Int) : List Char :=
  ("\x1D\x28\x6B\x03\x00\x31\x43").toList ++ [Char.ofNat size.toNat]

/-- `errorCommand` local of `printQRCode`. -/
def errorCommand : List Char :=
  ("\x1D\x28\x6B\x03\x00\x31\x45").toList ++ [Char.ofNat 51]

/-- `storeCommand` local of `printQRCode`: `storeLen = data.length + 3`,
`pL = storeLen & 0xff`, `pH = (storeLen >> 8) & 0xff` (the embedding uses
`Nat` bit operations; JavaScript's signed 32-bit shift agrees on every
attainable string length). -/
def storeCommand (data : List Char) : List Char :=
  ("\x1D\x28\x6B").toList ++
    [Char.ofNat ((data.length + 3) &&& 255), Char.ofNat (((data.length + 3) >>> 8) &&& 255)] ++
    ("\x31\x50\x30").toList ++ data

/-- `printCommand` local of `printQRCode`. -/
def printCommand : List Char := ("\x1D\x28\x6B\x03\x00\x31\x51\x30").toList

/-- `centerOn` local of `printQRCode`: `ESC a 1`. -/
def centerOn : List Char := '\x1B' :: 'a' :: [Char.ofNat 1]

/-- `centerOff` local of `printQRCode`: `ESC a 0`. -/
def centerOff : List Char := '\x1B' :: 'a' :: [Char.ofNat 0]

/-- Embeds `printQRCode` from `escpos-commands.ts`: the concatenation of the
centering wrapper, model select, clamped module size, error correction,
length-prefixed payload store and the print trigger. -/
def printQRCode (data : List Char) (moduleSize : Int) : List Char :=
  centerOn ++ modelCommand ++ sizeCommand (qrClamp moduleSize) ++ errorCommand ++
    storeCommand data ++ printCommand ++ centerOff

/-- Embeds `addBreaks` from `escpos-commands.ts`: `ESC d n`. -/
def addBreaks (n : Nat) : List Char := '\x1B' :: 'd' :: [Char.ofNat n]

/-- Embeds `centerText` from `escpos-commands.ts`: `ESC a 1`. -/
def centerText : List Char := ("\x1B\x61\x01").toList

/-- Embeds `boldText` from `escpos-commands.ts`: `ESC E 1`. -/
def boldText : List Char := ("\x1B\x45\x01").toList

/-- Embeds `reset` from `escpos-commands.ts`: `ESC @`. -/
def reset : List Char := ("\x1B\x40").toList

/-- Embeds `dottedLineLocal` from `BluetoothDeviceSelector.tsx`:
`".".repeat(width) + "\n"`. -/
def dottedLineLocal (width : Nat) : List Char := List.replicate width '.' ++ ['\n']

/-- Claim C4: the module-size parameter of `printQRCode` is clamped into
`[1, 8]`, so `printQRCode data 20` emits exactly the bytes of
`printQRCode data 8`, and `printQRCode data 0` those of
`printQRCode data 1`. -/
theorem C4_qr_clamp (data : List Char) :
    printQRCode data 20 = printQRCode data 8 ∧ printQRCode data 0 = printQRCode data 1 := by
  constructor <;> rfl

/-- Claim C5: inside `printQRCode data m`, the store-data command carries a
2-byte little-endian length prefix equal to `data.length + 3` — low byte
`(data.length + 3) % 256` first, then high byte
`((data.length + 3) / 256) % 256` — followed by the store function bytes,
the payload, and then the print-trigger command. -/
theorem C5_qr_store_length (data : List Char) (m : Int) :
    printQRCode data m =
      centerOn ++ modelCommand ++ sizeCommand (qrClamp m) ++ errorCommand ++
        (("\x1D\x28\x6B").toList ++
          [Char.ofNat ((data.length + 3) % 256),
            Char.ofNat ((data.length + 3) / 256 % 256)] ++
          ("\x31\x50\x30").toList ++ data) ++
        printCommand ++ centerOff := by
  have hlow : (data.length + 3) &&& 255 = (data.length + 3) % 256 := by
    have h := Nat.and_pow_two_sub_one_eq_mod (data.length + 3) 8
    norm_num at h
    exact h
  have hhigh : ((data.length + 3) >>> 8) &&& 255 = (data.length + 3) / 256 % 256 := by
    have h := Nat.and_pow_two_sub_one_eq_mod ((data.length + 3) >>> 8) 8
    norm_num at h
    rw [h, Nat.shiftRight_eq_div_pow]
  simp only [printQRCode, storeCommand, hlow, hhigh]

/-- `invNumber` may be a number or a string in the `Invoice` interface. -/
inductive NumOrStr where
  | num (i : Int)
  | str (s : List Char)
deriving DecidableEq

/-- Template-literal rendering of `invNumber`. -/
def NumOrStr.render : NumOrStr → List Char
  | .num i => intToString i
  | .str s => s

/-- One entry of `Invoice.lines` (all fields optional, as in the source). -/
structure LineItem where
  productName : Option (List Char) := none
  quantity : Option Int := none
  price : Option Int := none
  fullPrice : Option Int := none
  discountAmount : Option Int := none
  uom : Option (List Char) := none
deriving DecidableEq

/-- One entry of `Invoice.vat`. -/
structure VatItem where
  vatType : Option (List Char) := none
  amount : Option Int := none
deriving DecidableEq

/-- The `Invoice` interface of `BluetoothDeviceSelector.tsx` (every field
optional). -/
structure Invoice where
  header : Option (List Char) := none
  invoiceType : Option (List Char) := none
  invNumber : Option NumOrStr := none
  tin : Option (List Char) := none
  address : Option (List Char) := none
  fiscString : Option (List Char) := none
  opCode : Option (List Char) := none
  buCode : Option (List Char) := none
  Date : Option (List Char) := none
  FiscDateRange : Option (List Char) := none
  TaxPointDate : Option (List Char) := none
  lines : Option (List LineItem) := none
  totalPriceNoVat : Option Int := none
  vat : Option (List VatItem) := none
  totalDiscount : Option Int := none
  totalPrice : Option Int := none
  Exrate : Option Int := none
  CustomerName : Option (List Char) := none
  CustomerTin : Option (List Char) := none
  CustomerContact : Option (List Char) := none
  CustomerAddress : Option (List Char) := none
  qrCode : Option (List Char) := none
  qrSize : Option Int := none
  IIC : Option (List Char) := none
  FIC : Option (List Char) := none
  EIC : Option (List Char) := none
  Footer : Option (List Char) := none

/-- JavaScript truthiness of an optional string field (`undefined` and the
empty string are falsy). -/
def truthyStr (o : Option (List Char)) : Bool :=
  match o with
  | some s => !s.isEmpty
  | none => false

/-- Embeds `centerWrap` from `BluetoothDeviceSelector.tsx`: wraps, then pads
each resulting line with `floor((width - len) / 2)` leading spaces and
joins with line breaks. -/
def centerWrap (text : List Char) (width : Nat) : List Char :=
  List.intercalate ['\n']
    (((wrapText text width).splitOn '\n').map
      (fun line => List.replicate ((width - line.length) / 2) ' ' ++ line))

/-- The body of the `invoice.lines.forEach` loop of `formatInvoice` in
`BluetoothDeviceSelector.tsx`: a line renders only when both `quantity` and
`price` are present; the quantity/unit/price left text pairs with the
`fullPrice` right text (or hard-wraps alone when `fullPrice` is absent);
then the product name pairs with ` -<discount>L <fullPrice - discount>L`
when `discountAmount` is present, where the missing `fullPrice` defaults
to `0`, and with an empty right text otherwise. -/
def renderLine (line : LineItem) (width : Nat) : List Char :=
  match line.quantity, line.price with
  | some q, some p =>
    let leftText := intToString q ++ ("  ").toList ++ line.uom.getD [] ++ ("  x ").toList ++
      toFixed2 p ++ ['L']
    let firstPart :=
      match line.fullPrice with
      | some f => leftRightTextWrapped leftText (toFixed2 f ++ ['L']) width ++ ['\n']
      | none => wrapText leftText width ++ ['\n']
    let secondPart :=
      match line.discountAmount with
      | some d =>
        leftRightTextWrapped (line.productName.getD [])
          ((" -").toList ++ intToString d ++ ("L ").toList ++
            intToString (line.fullPrice.getD 0 - d) ++ ['L']) width ++ ['\n']
      | none => leftRightTextWrapped (line.productName.getD []) [] width ++ ['\n']
    firstPart ++ secondPart
  | _, _ => []

/-- The body of the `invoice.vat.forEach` loop of `formatInvoice`. -/
def renderVat (vatItem : VatItem) (width : Nat) : List Char :=
  match vatItem.vatType, vatItem.amount with
  | some t, some a =>
      leftRightTextWrapped (("TVSH ").toList ++ t) (intToString a ++ ['L']) width ++ ['\n']
  | _, _ => []

/-- The effective grid width of `formatInvoice`: `printerWidth || 48`. -/
def effWidth (printerWidth : Option Nat) : Nat :=
  match printerWidth with
  | some w => if w == 0 then 48 else w
  | none => 48

/-- `formatInvoice`, header section (centered header, tin, address, and the
bold large invoice type). -/
def headerSection (invoice : Invoice) (width : Nat) : List Char :=
  centerText ++
  (if truthyStr invoice.header then wrapText (invoice.header.getD []) width ++ ['\n'] else []) ++
  (if truthyStr invoice.tin then wrapText (invoice.tin.getD []) width ++ ['\n'] else []) ++
  (if truthyStr invoice.address then
    wrapText (invoice.address.getD []) width ++ ['\n'] else []) ++
  (if truthyStr invoice.invoiceType then
    boldText ++ setTextSize 1 ++ invoice.invoiceType.getD [] ++ ['\n'] ++ reset else []) ++
  reset

/-- `formatInvoice`, invoice-details section (each labeled line prints when
its field is non-null) followed by the dotted separator. -/
def detailsSection (invoice : Invoice) (width : Nat) : List Char :=
  (match invoice.invNumber with
    | some n => wrapText (("Nr. Fatures: ").toList ++ n.render) width ++ ['\n']
    | none => []) ++
  (match invoice.fiscString with
    | some s => wrapText s width ++ ['\n']
    | none => []) ++
  (match invoice.buCode with
    | some s => wrapText (("Njesia e Biznesit: ").toList ++ s) width ++ ['\n']
    | none => []) ++
  (match invoice.opCode with
    | some s => wrapText (("Kodi Operatorit: ").toList ++ s) width ++ ['\n']
    | none => []) ++
  (match invoice.Date with
    | some s => wrapText (("Data: ").toList ++ s) width ++ ['\n']
    | none => []) ++
  (match invoice.FiscDateRange with
    | some s => wrapText (("Periudha e faturimit: ").toList ++ s) width ++ ['\n']
    | none => []) ++
  (match invoice.TaxPointDate with
    | some s => wrapText (("Tax point date: ").toList ++ s) width ++ ['\n']
    | none => []) ++
  dottedLineLocal width

/-- `formatInvoice`, products section: the rendered line items and a closing
dotted separator when the `lines` array is present and nonempty. -/
def productsSection (invoice : Invoice) (width : Nat) : List Char :=
  match invoice.lines with
  | some ls =>
    if ls.isEmpty then []
    else (ls.map (fun line => renderLine line width)).flatten ++ dottedLineLocal width
  | none => []

/-- `formatInvoice`, totals/VAT section (no-VAT subtotal, total discount,
VAT lines, bold grand total). -/
def totalsSection (invoice : Invoice) (width : Nat) : List Char :=
  (match invoice.totalPriceNoVat with
    | some t =>
      leftRightTextWrapped (("SHUMA PA TVSH").toList) (intToString t ++ ['L']) width ++ ['\n']
    | none => []) ++
  (match invoice.totalDiscount with
    | some t =>
      leftRightTextWrapped (("ZBRITJA TOTALE").toList) (intToString t ++ ['L']) width ++ ['\n']
    | none => []) ++
  (match invoice.vat with
    | some vs =>
      if vs.isEmpty then [] else (vs.map (fun v => renderVat v width)).flatten
    | none => []) ++
  (match invoice.totalPrice with
    | some t =>
      boldText ++
        leftRightTextWrapped (("SHUMA Leke").toList) (intToString t ++ ['L']) width ++ ['\n'] ++
        reset
    | none => [])

/-- `formatInvoice`, customer block (centered, the later fields each on
their own line when truthy). -/
def customerSection (invoice : Invoice) (width : Nat) : List Char :=
  centerWrap
    ((invoice.CustomerName.getD []) ++
      (if truthyStr invoice.CustomerTin then '\n' :: invoice.CustomerTin.getD [] else []) ++
      (if truthyStr invoice.CustomerContact then
        '\n' :: invoice.CustomerContact.getD [] else []) ++
      (if truthyStr invoice.CustomerAddress then
        '\n' :: invoice.CustomerAddress.getD [] else []))
    width ++ ['\n']

/-- `formatInvoice`, trailer: QR code, the fiscal identifiers IIC/FIC/EIC,
and the footer, each centered and conditional on presence. -/
def trailerSection (invoice : Invoice) (width : Nat) : List Char :=
  (if truthyStr invoice.qrCode then
    printQRCode (invoice.qrCode.getD []) (invoice.qrSize.getD 7) else []) ++
  (if truthyStr invoice.IIC then
    centerWrap (("IIC:").toList ++ invoice.IIC.getD []) width ++ ['\n'] else []) ++
  (if truthyStr invoice.FIC then
    centerWrap (("FIC:").toList ++ invoice.FIC.getD []) width ++ ['\n'] else []) ++
  (if truthyStr invoice.EIC then
    centerWrap (("EIC:").toList ++ invoice.EIC.getD []) width ++ ['\n'] else []) ++
  (if truthyStr invoice.Footer then
    centerWrap (invoice.Footer.getD []) width ++ ['\n'] else [])

/-- Embeds `formatInvoice` from `BluetoothDeviceSelector.tsx` (the
width-parameterized variant), section by section in source order. -/
def formatInvoice (invoice : Invoice) (printerWidth : Option Nat) : List Char :=
  let width := effWidth printerWidth
  headerSection invoice width ++
  detailsSection invoice width ++
  productsSection invoice width ++
  totalsSection invoice width ++
  reset ++
  customerSection invoice width ++
  reset ++
  addBreaks 1 ++
  trailerSection invoice width ++
  addBreaks 4

/-- A JavaScript value handed to `formatInvoice`: the guard
`if (!invoice || typeof invoice !== 'object')` rejects `null`, `undefined`
and every primitive; only a real object reaches the renderer. -/
inductive JsValue where
  | vNull
  | vUndefined
  | vBool (b : Bool)
  | vNum (n : Int)
  | vStr (s : List Char)
  | vObj (inv : Invoice)

/-- `true` exactly on the values that pass the input guard of
`formatInvoice`. -/
def isInvoiceObject : JsValue → Bool
  | .vObj _ => true
  | _ => false

/-- `formatInvoice` as called on an arbitrary JavaScript value: the source
first runs the guard and returns `""` (after logging) on anything that is
not an object, and renders otherwise. -/
def formatInvoiceJs (v : JsValue) (printerWidth : Option Nat) : List Char :=
  match v with
  | .vObj inv => formatInvoice inv printerWidth
  | _ => []

/-- Claim C6: `formatInvoice` raises nothing and fails closed — on any input
value that is not a well-formed invoice object it returns the empty string,
and on a well-formed invoice object it returns the renderer's (total)
output. In this embedding every operation is a total function, which is
faithful: no operation in the source renderer can throw on the typed
invoice shape. -/
theorem C6_fail_closed (v : JsValue) (printerWidth : Option Nat) (inv : Invoice) :
    (isInvoiceObject v = false → formatInvoiceJs v printerWidth = []) ∧
    formatInvoiceJs (.vObj inv) printerWidth = formatInvoice inv printerWidth := by
  constructor
  · intro h
    cases v <;> simp_all [formatInvoiceJs, isInvoiceObject]
  · rfl

/-- The all-absent invoice object. -/
def emptyInvoice : Invoice := {}

/-- Witness for C6: `null` input yields the empty stream; an (empty) invoice
object is rendered by `formatInvoice`. -/
theorem C6_witness :
    formatInvoiceJs .vNull none = [] ∧
    formatInvoiceJs (.vObj emptyInvoice) none = formatInvoice emptyInvoice none :=
  ⟨(C6_fail_closed .vNull none emptyInvoice).1 rfl,
    (C6_fail_closed .vNull none emptyInvoice).2⟩

/-- Claim C7: for a line item with `quantity`, `price`, `fullPrice` and
`discountAmount` all present, the rendered discount line pairs the product
name against ` -<d>L <fullPrice - discountAmount>L`: the after-discount
amount is the exact difference `fullPrice - discountAmount`, with no
clamping to zero — a negative difference is rendered verbatim. -/
theorem C7_discount_arithmetic (line : LineItem) (width : Nat) (q p f d : Int)
    (hq : line.quantity = some q) (hp : line.price = some p)
    (hf : line.fullPrice = some f) (hd : line.discountAmount = some d) :
    renderLine line width =
      leftRightTextWrapped
        (intToString q ++ ("  ").toList ++ line.uom.getD [] ++ ("  x ").toList ++
          toFixed2 p ++ ['L'])
        (toFixed2 f ++ ['L']) width ++ ['\n'] ++
      (leftRightTextWrapped (line.productName.getD [])
        ((" -").toList ++ intToString d ++ ("L ").toList ++ intToString (f - d) ++ ['L'])
        width ++ ['\n']) := by
  simp [renderLine, hq, hp, hf, hd]

/-- Line item for the C7 witness: `fullPrice = 10`, `discountAmount = 3`. -/
def lineC7 : LineItem :=
  { productName := some (("milk").toList), quantity := some 1, price := some 2,
    fullPrice := some 10, discountAmount := some 3, uom := some (("pc").toList) }

/-- Witness for C7: at `fullPrice = 10`, `discountAmount = 3` the rendered
after-discount amount is `10 - 3`, whose rendering is `"7"`. -/
theorem C7_witness :
    renderLine lineC7 48 =
      leftRightTextWrapped
        (intToString 1 ++ ("  ").toList ++ ("pc").toList ++ ("  x ").toList ++
          toFixed2 2 ++ ['L'])
        (toFixed2 10 ++ ['L']) 48 ++ ['\n'] ++
      (leftRightTextWrapped (("milk").toList)
        ((" -").toList ++ intToString 3 ++ ("L ").toList ++ intToString (10 - 3) ++ ['L'])
        48 ++ ['\n']) ∧
    intToString ((10 : Int) - 3) = ['7'] :=
  ⟨C7_discount_arithmetic lineC7 48 1 2 10 3 rfl rfl rfl rfl, by decide⟩

/-- Claim C9: when `quantity`, `price` and `discountAmount` are present but
`fullPrice` is absent, the renderer defaults the missing `fullPrice` to `0`,
so the rendered after-discount amount is `0 - discountAmount` — the
negation of the discount, printed verbatim. -/
theorem C9_missing_full_price (line : LineItem) (width : Nat) (q p d : Int)
    (hq : line.quantity = some q) (hp : line.price = some p)
    (hf : line.fullPrice = none) (hd : line.discountAmount = some d) :
    renderLine line width =
      wrapText (intToString q ++ ("  ").toList ++ line.uom.getD [] ++ ("  x ").toList ++
        toFixed2 p ++ ['L']) width ++ ['\n'] ++
      (leftRightTextWrapped (line.productName.getD [])
        ((" -").toList ++ intToString d ++ ("L ").toList ++ intToString (0 - d) ++ ['L'])
        width ++ ['\n']) := by
  simp [renderLine, hq, hp, hf, hd]

/-- Line item for the C9 witness: `discountAmount = 5`, no `fullPrice`. -/
def lineC9 : LineItem :=
  { productName := some (("milk").toList), quantity := some 1, price := some 2,
    fullPrice := none, discountAmount := some 5, uom := none }

/-- Witness for C9: with `fullPrice` absent and `discountAmount = 5` the
rendered after-discount amount is `0 - 5`, whose rendering is `"-5"`. -/
theorem C9_witness :
    renderLine lineC9 48 =
      wrapText (intToString 1 ++ ("  ").toList ++ [] ++ ("  x ").toList ++
        toFixed2 2 ++ ['L']) 48 ++ ['\n'] ++
      (leftRightTextWrapped (("milk").toList)
        ((" -").toList ++ intToString 5 ++ ("L ").toList ++ intToString (0 - 5) ++ ['L'])
        48 ++ ['\n']) ∧
    intToString ((0 : Int) - 5) = ['-', '5'] :=
  ⟨C9_missing_full_price lineC9 48 1 2 5 rfl rfl rfl rfl, by decide⟩

/-- The whitespace characters relevant to JavaScript `String.prototype.trim`
on this protocol's ASCII request text. -/
def jsWhitespace (c : Char) : Bool := c == ' ' || c == '\r' || c == '\n' || c == '\t'

/-- JavaScript `String.prototype.trim`: strips leading and trailing
whitespace. -/
def jsTrim (l : List Char) : List Char :=
  ((l.dropWhile jsWhitespace).reverse.dropWhile jsWhitespace).reverse

/-- The header/body delimiter `"\r\n\r\n"`. -/
def delim : List Char := ("\r\n\r\n").toList

/-- JavaScript `String.prototype.indexOf` of a pattern: the index of its
first occurrence, `none` when absent. -/
def findSub (pat : List Char) : List Char → Option Nat
  | [] => if pat.isPrefixOf ([] : List Char) then some 0 else none
  | a :: t =>
    if pat.isPrefixOf (a :: t) then some 0 else (findSub pat t).map (fun i => i + 1)

/-- The literal `OPTIONS` pre-flight response of the TCP data handler in
`App.tsx` (second variant): status 204, CORS headers, `Content-Length: 0`
and no body. -/
def optionsResponse : List Char :=
  ("HTTP/1.1 204 No Content\r\nAccess-Control-Allow-Origin: *\r\nAccess-Control-Allow-Methods: GET, POST, OPTIONS\r\nAccess-Control-Allow-Headers: Content-Type, authorization\r\nContent-Length: 0\r\n\r\n").toList

/-- Status line written on a successful `/print`. -/
def status200 : List Char := ("HTTP/1.1 200 OK\r\n").toList

/-- Status line written when the delimiter or the body is missing. -/
def status400 : List Char := ("HTTP/1.1 400 Bad Request\r\n").toList

/-- Status line written when parsing or printing throws. -/
def status500 : List Char := ("HTTP/1.1 500 Internal Server Error\r\n").toList

/-- The `/print` response: the chosen status line plus fixed headers and an
empty body. -/
def postResponse (statusLine : List Char) : List Char :=
  statusLine ++
    ("Access-Control-Allow-Origin: *\r\nAccess-Control-Allow-Headers: Content-Type\r\nContent-Type: text/plain\r\nContent-Length: 0\r\n\r\n").toList

/-- The literal `POST /ReturnToApp` response (status 200, empty body). -/
def returnResponse : List Char :=
  ("HTTP/1.1 200 OK\r\nAccess-Control-Allow-Origin: *\r\nAccess-Control-Allow-Headers: Content-Type, authorization\r\nContent-Type: text/plain\r\nContent-Length: 0\r\n\r\n").toList

/-- The literal fallback response blocking unknown endpoints (status 403). -/
def forbiddenResponse : List Char :=
  ("HTTP/1.1 403 Forbidden\r\nAccess-Control-Allow-Origin: *\r\nContent-Type: text/plain\r\nContent-Length: 0\r\n\r\n").toList

/-- Embeds the TCP `socket.on('data', ...)` handler of `App.tsx` (the
second, status-code-aware variant at lines 977-1042). `parse` stands for
`JSON.parse` (`none` = throw) and `printOk` for `await printInvoice`
(`false` = throw); both are external to this handler's own logic. The
handler trims the raw chunk, matches the verb+path prefix, splits the body
at the first `\r\n\r\n`, and writes exactly one response string. -/
def dataHandler (parse : List Char → Option Invoice) (printOk : Invoice → Bool)
    (raw : List Char) : List Char :=
  let requestStr := jsTrim raw
  if (("OPTIONS").toList).isPrefixOf requestStr then optionsResponse
  else if (("POST /print").toList).isPrefixOf requestStr then
    postResponse
      (match findSub delim requestStr with
        | some bodyIndex =>
          let body := jsTrim (requestStr.drop (bodyIndex + delim.length))
          if body.isEmpty then status400
          else
            match parse body with
            | some invoice => if printOk invoice then status200 else status500
            | none => status500
        | none => status400)
  else if (("POST /ReturnToApp").toList).isPrefixOf requestStr then returnResponse
  else forbiddenResponse

/-- The three digits of the status code of a response string (after the
9-character prefix `HTTP/1.1 `). -/
def statusCode (resp : List Char) : List Char := (resp.drop 9).take 3

/-- The body of a response string: everything after the first header/body
delimiter. -/
def bodyOf (resp : List Char) : List Char :=
  match findSub delim resp with
  | some i => resp.drop (i + delim.length)
  | none => []

/-- The status table stated by the claim (and §6 of the spec), written from
the claim's words: `OPTIONS` → 204; `POST /print` → 400 when the delimiter
is missing or the body is empty, 200 when the body parses and prints, 500
when parsing or printing fails; the auxiliary `POST /ReturnToApp` control
path → 200; anything else → 403. -/
def specStatus (parse : List Char → Option Invoice) (printOk : Invoice → Bool)
    (requestStr : List Char) : List Char :=
  if (("OPTIONS").toList).isPrefixOf requestStr then ("204").toList
  else if (("POST /print").toList).isPrefixOf requestStr then
    match findSub delim requestStr with
    | some bodyIndex =>
      let body := jsTrim (requestStr.drop (bodyIndex + delim.length))
      if body.isEmpty then ("400").toList
      else
        match parse body with
        | some invoice => if printOk invoice then ("200").toList else ("500").toList
        | none => ("500").toList
    | none => ("400").toList
  else if (("POST /ReturnToApp").toList).isPrefixOf requestStr then ("200").toList
  else ("403").toList

set_option maxRecDepth 4000 in
/-- Claim C8: the dispatch handler answers every inbound request with the
status determined by the request's verb+path prefix and body — 200 for a
`POST /print` whose body parses and prints, 400 when the delimiter is
missing or the body empty, 204 with an empty body for `OPTIONS`, and 403
for any request matching none of the recognized prefixes. -/
theorem C8_dispatch_status (parse : List Char → Option Invoice) (printOk : Invoice → Bool)
    (raw : List Char) :
    statusCode (dataHandler parse printOk raw) = specStatus parse printOk (jsTrim raw) ∧
    ((("OPTIONS").toList).isPrefixOf (jsTrim raw) = true →
      bodyOf (dataHandler parse printOk raw) = []) := by
  constructor
  · simp only [dataHandler, specStatus]
    by_cases h1 : (("OPTIONS").toList).isPrefixOf (jsTrim raw) = true
    · simp only [h1, if_true]
      rfl
    · simp only [h1]
      by_cases h2 : (("POST /print").toList).isPrefixOf (jsTrim raw) = true
      · simp only [h2, if_true, Bool.false_eq_true, if_false]
        rcases hfs : findSub delim (jsTrim raw) with _ | i
        · rfl
        · by_cases hb : (jsTrim ((jsTrim raw).drop (i + delim.length))).isEmpty = true
          · simp only [hb, if_true]
            rfl
          · simp only [hb, Bool.false_eq_true, if_false]
            rcases hp : parse (jsTrim ((jsTrim raw).drop (i + delim.length))) with _ | inv
            · rfl
            · by_cases hok : printOk inv = true
              · simp only [hok, if_true]
                rfl
              · simp only [hok, Bool.false_eq_true, if_false]
                rfl
      · simp only [h2]
        by_cases h3 : (("POST /ReturnToApp").toList).isPrefixOf (jsTrim raw) = true
        · simp only [h3, if_true, Bool.false_eq_true, if_false]
          rfl
        · simp only [h3, Bool.false_eq_true, if_false]
          rfl
  · intro h1
    simp only [dataHandler, h1, if_true]
    rfl

/-- A `JSON.parse` stand-in that always throws. -/
def parseNone : List Char → Option Invoice := fun _ => none

/-- A `printInvoice` stand-in that always succeeds. -/
def printAlways : Invoice → Bool := fun _ => true

set_option maxRecDepth 4000 in
/-- Witness for C8 at the concrete request `"OPTIONS / HTTP/1.1\r\n\r\n"`:
the handler answers 204 with an empty body. -/
theorem C8_witness :
    statusCode (dataHandler parseNone printAlways (("OPTIONS / HTTP/1.1\r\n\r\n").toList)) =
      ("204").toList ∧
    bodyOf (dataHandler parseNone printAlways (("OPTIONS / HTTP/1.1\r\n\r\n").toList)) = [] := by
  constructor
  · rw [(C8_dispatch_status parseNone printAlways (("OPTIONS / HTTP/1.1\r\n\r\n").toList)).1]
    decide
  · exact (C8_dispatch_status parseNone printAlways (("OPTIONS / HTTP/1.1\r\n\r\n").toList)).2
      (by decide)

end BTprinter
